import Mathlib

/-!
Shallow embedding of the multi-target review orchestrator of
`pkg/gcv/validator.go` (Forseti Config Validator), together with the
external-collaborator contracts it relies on.  Resource representations
(Go `map[string]interface{}` values produced by JSON unmarshalling) are
modelled as association lists of `JSON` values; collaborator calls
(format adapters, Constraint Framework clients) are parameters of the
embedded functions; Go runtime panics (failed type assertions) are a
distinct outcome from returned errors.
-/

set_option autoImplicit false

namespace GCV

/-- A JSON-like dynamic value, the model of Go `interface{}` values
obtained from `encoding/json` unmarshalling. -/
inductive JSON where
  | null
  | bool (b : Bool)
  | num (n : Int)
  | str (s : String)
  | arr (xs : List JSON)
  | obj (fields : List (String × JSON))

/-- Model of Go `map[string]interface{}`: an association list with the
first binding of a key authoritative. -/
def RMap := List (String × JSON)

/-- Go map read `m[k]`: `some v` when the key is present. -/
def lookupKey : RMap → String → Option JSON
  | [], _ => none
  | (k', v') :: rest, k => if k' = k then some v' else lookupKey rest k

/-- Go map write `m[k] = v`: replace the binding in place, or append. -/
def setKey : RMap → String → JSON → RMap
  | [], k, v => [(k, v)]
  | (k', v') :: rest, k, v =>
    if k' = k then (k, v) :: rest else (k', v') :: setKey rest k v

/- ---------------------------------------------------------------------
Ancestry encoding collaborators (`pkg/asset`, `pkg/gcv/configs`), which
are part of this repository but outside the provided source file.
--------------------------------------------------------------------- -/

/-- Modelled from the spec: `asset2.AncestryPath` — the deterministic
encoding of an ordered ancestor-identifier sequence into the canonical
ancestry path string (the ancestor identifiers joined by `/`). -/
def AncestryPath (ancestors : List String) : String :=
  String.intercalate "/" ancestors

/-- Split a character list at every `/`, keeping empty segments. -/
def splitSlash : List Char → List (List Char)
  | [] => [[]]
  | c :: rest =>
    if c = '/' then [] :: splitSlash rest
    else
      match splitSlash rest with
      | [] => [[c]]
      | seg :: segs => (c :: seg) :: segs

/-- Join segments with `/` separators (inverse of `splitSlash` on
slash-free segments). -/
def joinSlash : List (List Char) → List Char
  | [] => []
  | [seg] => seg
  | seg :: segs => seg ++ '/' :: joinSlash segs

/-- Canonical re-spelling of one path segment. -/
def normalizeSegment (s : List Char) : List Char :=
  if s = "organization".data then "organizations".data
  else if s = "folder".data then "folders".data
  else if s = "project".data then "projects".data
  else s

/-- Modelled from the spec: `configs.NormalizeAncestry` — normalize the
encoding of an already-encoded ancestry path string in place, segment by
segment (an idempotent re-encoding). -/
def NormalizeAncestry (p : String) : String :=
  String.mk (joinSlash ((splitSlash p.data).map normalizeSegment))

/- ---------------------------------------------------------------------
`k8s.io/apimachinery` unstructured accessors (external library), per
their documented contract: a type mismatch yields `found = false`
together with a non-nil error, so `found && err == nil` holds exactly
when the field is present and well-typed.
--------------------------------------------------------------------- -/

/-- Coerce a JSON array to a string slice, as `NestedStringSlice` does
element by element. -/
def asStringList : List JSON → Option (List String)
  | [] => some []
  | JSON.str s :: rest => (asStringList rest).map (fun ss => s :: ss)
  | _ => none

/-- `unstructured.NestedStringSlice(obj, field)` for one field:
`(value, found, err-is-non-nil)`. -/
def nestedStringSlice (obj : RMap) (field : String) :
    List String × Bool × Bool :=
  match lookupKey obj field with
  | none => ([], false, false)
  | some (JSON.arr xs) =>
    match asStringList xs with
    | some ss => (ss, true, false)
    | none => ([], false, true)
  | some _ => ([], false, true)

/-- `unstructured.NestedString(obj, field)` for one field:
`(value, found, err-is-non-nil)`. -/
def nestedString (obj : RMap) (field : String) : String × Bool × Bool :=
  match lookupKey obj field with
  | none => ("", false, false)
  | some (JSON.str s) => (s, true, false)
  | some _ => ("", false, true)

/-- The JSON object key for ancestry path. -/
def ancestryPathKey : String := "ancestry_path"

/-- The JSON object key for ancestors list. -/
def ancestorSliceKey : String := "ancestors"

/-- Review-pipeline errors returned (as Go `error` values) by the
validator's per-call path. -/
inductive VErr where
  | missingAncestry (input : RMap)
  | convertFailed (e : String)
  | k8sReviewFailed (e : String)
  | gcpReviewFailed (e : String)
  | sanitizeFailed (e : String)
  | missingField (field : String)

/-- `Validator.fixAncestry`: derive the canonical `ancestry_path` field
from the `ancestors` list when that is present and well-typed, else
normalize an existing well-typed `ancestry_path` string, else fail.
The Go method mutates its argument; the model returns the updated map. -/
def fixAncestry (input : RMap) : Except VErr RMap :=
  match nestedStringSlice input ancestorSliceKey with
  | (ancestors, true, false) =>
    Except.ok (setKey input ancestryPathKey (JSON.str (AncestryPath ancestors)))
  | _ =>
    match nestedString input ancestryPathKey with
    | (ancestry, true, false) =>
      Except.ok (setKey input ancestryPathKey (JSON.str (NormalizeAncestry ancestry)))
    | _ => Except.error (VErr.missingAncestry input)

/- ---------------------------------------------------------------------
Results, collaborator shapes, and outcomes.
--------------------------------------------------------------------- -/

/-- Opaque payload of raw per-constraint responses from a Constraint
Framework client's `Review` call.  The orchestrator never inspects it. -/
structure Responses where
  raw : List String

/-- One policy breach, as materialized from a `Result`. -/
structure Violation where
  resource : String
  message : String

/-- Modelled from the spec: the `Result` of one review call wraps the
target domain name, the display identifier, the pre- and post-adaptation
resource data, and the raw evaluation responses. -/
structure Result where
  targetName : String
  name : String
  asset : RMap
  reviewedAsset : RMap
  responses : Responses

/-- Modelled from the spec: `NewResult` wraps its five arguments into a
`Result` (the spec defines no failure mode for this translation). -/
def NewResult (target : String) (name : String) (asset : RMap)
    (reviewedAsset : RMap) (responses : Responses) : Result :=
  { targetName := target, name := name, asset := asset,
    reviewedAsset := reviewedAsset, responses := responses }

/-- Modelled from the spec: `Result.ToViolations` materializes the
violation sequence from the raw responses, purely and in stable input
order. -/
def toViolations (r : Result) : List Violation :=
  r.responses.raw.map (fun msg => { resource := r.name, message := msg })

/-- Model of a `*unstructured.Unstructured` Kubernetes object produced
by the CAI-to-K8s adapter. -/
structure K8sObject where
  Object : RMap

/-- `GetName` of an unstructured object: the `metadata.name` string, or
the empty string when absent (the apimachinery accessor's default). -/
def K8sObject.getName (o : K8sObject) : String :=
  match lookupKey o.Object "metadata" with
  | some (JSON.obj meta) =>
    match lookupKey meta "name" with
    | some (JSON.str s) => s
    | _ => ""
  | _ => ""

/-- Does the second character list start with the first? -/
def listStartsWith : List Char → List Char → Bool
  | [], _ => true
  | _ :: _, [] => false
  | p :: ps, c :: cs => if p = c then listStartsWith ps cs else false

/-- Modelled from the spec: `asset2.IsK8S` — the domain-discriminating
marker is an `asset_type` field matching the Kubernetes convention. -/
def isK8S (asset : RMap) : Bool :=
  match lookupKey asset "asset_type" with
  | some (JSON.str t) => listStartsWith "k8s.io/".data t.data
  | _ => false

/-- Modelled from the spec: `configs.K8STargetName`, the Kubernetes
target domain name. -/
def K8STargetName : String := "k8s"

/-- Modelled from the spec: `gcptarget.Name`, the GCP target domain
name. -/
def GCPTargetName : String := "gcp"

/-- Modelled from the spec: `tftarget.Name`, the Terraform target
domain name. -/
def TFTargetName : String := "tf"

/-- Outcome of one Go call: a returned value, a returned error, or a
propagating runtime panic. -/
inductive GoOutcome (ε α : Type) where
  | ok (a : α)
  | err (e : ε)
  | panicked (msg : String)

/-- The Go runtime message of a failed `.(string)` type assertion. -/
def stringAssertPanicMsg : String :=
  "interface conversion: interface \x7b\x7d is not string"

/- ---------------------------------------------------------------------
The per-call review path (`ReviewUnmarshalledJSON` and its two
dispatch arms).  The external collaborators — the CAI-to-K8s format
adapter `conv` and the per-domain Constraint Framework review calls
`krev` / `grev` — are parameters.
--------------------------------------------------------------------- -/

/-- `Validator.reviewK8SResource`: convert the asset via the adapter,
review the converted object with the K8s client, then build the result
using `asset["name"].(string)` as identifier (a panicking assertion). -/
def reviewK8SResource (conv : RMap → Except String K8sObject)
    (krev : K8sObject → Except String Responses)
    (asset : RMap) : GoOutcome VErr Result :=
  match conv asset with
  | Except.error e => GoOutcome.err (VErr.convertFailed e)
  | Except.ok k8sResource =>
    match krev k8sResource with
    | Except.error e => GoOutcome.err (VErr.k8sReviewFailed e)
    | Except.ok responses =>
      match lookupKey asset "name" with
      | some (JSON.str s) =>
        GoOutcome.ok (NewResult K8STargetName s asset k8sResource.Object responses)
      | _ => GoOutcome.panicked stringAssertPanicMsg

/-- `Validator.reviewGCPResource`: review the asset verbatim with the
GCP client, then build the result using `asset["name"].(string)` as
identifier (a panicking assertion); pre- and post-adaptation data are
the same map. -/
def reviewGCPResource (grev : RMap → Except String Responses)
    (asset : RMap) : GoOutcome VErr Result :=
  match grev asset with
  | Except.error e => GoOutcome.err (VErr.gcpReviewFailed e)
  | Except.ok responses =>
    match lookupKey asset "name" with
    | some (JSON.str s) =>
      GoOutcome.ok (NewResult GCPTargetName s asset asset responses)
    | _ => GoOutcome.panicked stringAssertPanicMsg

/-- `Validator.ReviewUnmarshalledJSON`: fix ancestry in place, then
dispatch on the Kubernetes marker. -/
def ReviewUnmarshalledJSON (conv : RMap → Except String K8sObject)
    (krev : K8sObject → Except String Responses)
    (grev : RMap → Except String Responses)
    (asset : RMap) : GoOutcome VErr Result :=
  match fixAncestry asset with
  | Except.error e => GoOutcome.err e
  | Except.ok fixed =>
    if isK8S fixed then reviewK8SResource conv krev fixed
    else reviewGCPResource grev fixed

/- ---------------------------------------------------------------------
`ReviewAsset`: the typed-asset entry point.  Its callees
(`asset2.SanitizeAncestryPath`, `asset2.ValidateAsset`,
`asset2.ConvertResourceViaJSONToInterface`) live in this repository's
`pkg/asset` package, outside the provided source file, and are modelled
from the spec.
--------------------------------------------------------------------- -/

/-- A `validator.Asset` protocol-buffer message (proto3: scalar fields
are always present, with zero values standing for absence). -/
structure ProtoAsset where
  name : String
  assetType : String
  ancestryPath : String
  ancestors : List String
  resource : RMap

/-- Modelled from the spec: `asset2.SanitizeAncestryPath` fills/repairs
the ancestry-path formatting of a typed asset — derive the path from the
ancestor sequence when one is given (sequence form wins), else
re-normalize an existing path, else fail. -/
def SanitizeAncestryPath (a : ProtoAsset) : Except VErr ProtoAsset :=
  if a.ancestors ≠ [] then
    Except.ok { a with ancestryPath := AncestryPath a.ancestors }
  else if a.ancestryPath ≠ "" then
    Except.ok { a with ancestryPath := NormalizeAncestry a.ancestryPath }
  else
    Except.error (VErr.sanitizeFailed "no ancestry information in asset")

/-- Modelled from the spec: `asset2.ValidateAsset` validates that the
required fields are present and well-typed, failing with a descriptive
error naming the missing/invalid field. -/
def ValidateAsset (a : ProtoAsset) : Except VErr Unit :=
  if a.name = "" then Except.error (VErr.missingField "name")
  else if a.ancestryPath = "" then Except.error (VErr.missingField "ancestry_path")
  else Except.ok ()

/-- Modelled from the spec: `asset2.ConvertResourceViaJSONToInterface`
marshals the typed asset to JSON and unmarshals it into a generic map;
proto3 JSON marshalling omits zero-valued fields. -/
def ConvertResourceViaJSONToInterface (a : ProtoAsset) : RMap :=
  (if a.name = "" then [] else [("name", JSON.str a.name)]) ++
  (if a.assetType = "" then [] else [("asset_type", JSON.str a.assetType)]) ++
  (if a.ancestryPath = "" then [] else [("ancestry_path", JSON.str a.ancestryPath)]) ++
  (if a.ancestors = [] then [] else [("ancestors", JSON.arr (a.ancestors.map JSON.str))]) ++
  (match a.resource with
   | [] => []
   | r => [("resource", JSON.obj r)])

/-- `Validator.ReviewAsset`: sanitize the ancestry path, validate the
asset, convert it to a generic map, run the shared review core, and
materialize the violations. -/
def ReviewAsset (conv : RMap → Except String K8sObject)
    (krev : K8sObject → Except String Responses)
    (grev : RMap → Except String Responses)
    (a : ProtoAsset) : GoOutcome VErr (List Violation) :=
  match SanitizeAncestryPath a with
  | Except.error e => GoOutcome.err e
  | Except.ok a1 =>
    match ValidateAsset a1 with
    | Except.error e => GoOutcome.err e
    | Except.ok _ =>
      match ReviewUnmarshalledJSON conv krev grev (ConvertResourceViaJSONToInterface a1) with
      | GoOutcome.err e => GoOutcome.err e
      | GoOutcome.panicked msg => GoOutcome.panicked msg
      | GoOutcome.ok result => GoOutcome.ok (toViolations result)

/- ---------------------------------------------------------------------
`newCFClient`: per-domain bootstrap.  The Constraint Framework engine is
an external collaborator; its responses to driver creation, client
creation, `AddTemplate` and `AddConstraint` are parameters (`none`
meaning success, `some e` the returned error).  The model also records
which constraints a run attempted to load.
--------------------------------------------------------------------- -/

/-- Bootstrap errors of `newCFClient`. -/
inductive CFErr where
  | driverFailed (e : String)
  | clientFailed (e : String)
  | aggregated (msgs : List String)

/-- The `multierror` entry recorded for one failed template. -/
def templateLoadError (template e : String) : String :=
  "failed to add template " ++ template ++ ": " ++ e

/-- The `multierror` entry recorded for one failed constraint. -/
def constraintLoadError (constraint e : String) : String :=
  "failed to add constraint " ++ constraint ++ ": " ++ e

/-- The aggregated template-failure list collected by the first loop of
`newCFClient` (one entry per failing template, in input order). -/
def templateErrors (addTemplate : String → Option String)
    (templates : List String) : List String :=
  templates.filterMap (fun t => (addTemplate t).map (templateLoadError t))

/-- The aggregated constraint-failure list collected by the second loop
of `newCFClient`. -/
def constraintErrors (addConstraint : String → Option String)
    (constraints : List String) : List String :=
  constraints.filterMap (fun c => (addConstraint c).map (constraintLoadError c))

/-- `newCFClient`: create driver and client, load every template
collecting failures, abort with the aggregated error before touching
constraints if any template failed, else load every constraint the same
way, returning the handle (`Unit` here) only when everything loaded.
The second component is the list of constraints the run attempted to
load. -/
def newCFClient (driverRes clientRes : Option String)
    (addTemplate addConstraint : String → Option String)
    (templates constraints : List String) :
    Except CFErr Unit × List String :=
  match driverRes with
  | some e => (Except.error (CFErr.driverFailed e), [])
  | none =>
    match clientRes with
    | some e => (Except.error (CFErr.clientFailed e), [])
    | none =>
      match templateErrors addTemplate templates with
      | [] =>
        match constraintErrors addConstraint constraints with
        | [] => (Except.ok (), constraints)
        | cErrs => (Except.error (CFErr.aggregated cErrs), constraints)
      | tErrs => (Except.error (CFErr.aggregated tErrs), [])

/- ---------------------------------------------------------------------
`ReviewTFResourceChange`: the Terraform entry point.  The adapter's
conversion (`tftarget.HandleReview`, repository code outside the source
file) and the TF Constraint Framework review call are parameters.  The
model records the arguments passed to the client's `Review` call.
--------------------------------------------------------------------- -/

/-- Terraform-path errors. -/
inductive TFErr where
  | unhandledResource
  | tfReviewFailed (e : String)

/-- Modelled from the spec: `tftarget.HandleReview` reports an input as
handled exactly when it is a recognized planned-change shape, which
requires a string `address` field; on handled inputs it also returns a
converted value (abstracted as `tfConvert input`). -/
def tfHandleReview (tfConvert : RMap → RMap) (input : RMap) :
    Bool × Option RMap :=
  match lookupKey input "address" with
  | some (JSON.str _) => (true, some (tfConvert input))
  | _ => (false, none)

/-- `Validator.ReviewTFResourceChange` up to result construction: check
the input is handled (discarding the converted value), review the
ORIGINAL input with the TF client, and build the result from the
original input with `inputResource["address"].(string)` as identifier.
The second component lists the arguments passed to `Review`. -/
def ReviewTFResourceChangeCore (tfConvert : RMap → RMap)
    (tfReview : RMap → Except String Responses)
    (inputResource : RMap) : GoOutcome TFErr Result × List RMap :=
  match tfHandleReview tfConvert inputResource with
  | (false, _) => (GoOutcome.err TFErr.unhandledResource, [])
  | (true, _) =>
    match tfReview inputResource with
    | Except.error e => (GoOutcome.err (TFErr.tfReviewFailed e), [inputResource])
    | Except.ok responses =>
      match lookupKey inputResource "address" with
      | some (JSON.str addr) =>
        (GoOutcome.ok (NewResult TFTargetName addr inputResource inputResource responses),
         [inputResource])
      | _ => (GoOutcome.panicked stringAssertPanicMsg, [inputResource])

/-- `Validator.ReviewTFResourceChange`: the core followed by violation
materialization. -/
def ReviewTFResourceChange (tfConvert : RMap → RMap)
    (tfReview : RMap → Except String Responses)
    (inputResource : RMap) : GoOutcome TFErr (List Violation) × List RMap :=
  match ReviewTFResourceChangeCore tfConvert tfReview inputResource with
  | (GoOutcome.ok result, calls) => (GoOutcome.ok (toViolations result), calls)
  | (GoOutcome.err e, calls) => (GoOutcome.err e, calls)
  | (GoOutcome.panicked msg, calls) => (GoOutcome.panicked msg, calls)

/-- Is the value at `key` a string?  (`m[key].(string)` succeeds.) -/
def isStringAt (m : RMap) (key : String) : Bool :=
  match lookupKey m key with
  | some (JSON.str _) => true
  | _ => false

/-- The guard of `fixAncestry`'s first branch: the `ancestors` field is
present and well-typed (`found && err == nil`). -/
def hasWellTypedAncestors (m : RMap) : Bool :=
  match nestedStringSlice m ancestorSliceKey with
  | (_, true, false) => true
  | _ => false

/-- The guard of `fixAncestry`'s second branch: the `ancestry_path`
field is present and string-typed (`found && err == nil`). -/
def hasWellTypedAncestryPath (m : RMap) : Bool :=
  match nestedString m ancestryPathKey with
  | (_, true, false) => true
  | _ => false

/- ---------------------------------------------------------------------
Helper lemmas.
--------------------------------------------------------------------- -/

theorem lookupKey_setKey_self (m : RMap) (k : String) (v : JSON) :
    lookupKey (setKey m k v) k = some v := by
  induction m with
  | nil => simp [setKey, lookupKey]
  | cons p rest ih =>
    obtain ⟨k', v'⟩ := p
    by_cases h : k' = k
    · simp [setKey, h, lookupKey]
    · simp [setKey, h, lookupKey, ih]

theorem lookupKey_setKey_other (m : RMap) (k k' : String) (v : JSON)
    (h : k' ≠ k) : lookupKey (setKey m k v) k' = lookupKey m k' := by
  induction m with
  | nil =>
    simp only [setKey, lookupKey]
    rw [if_neg (fun e => h e.symm)]
  | cons p rest ih =>
    obtain ⟨k0, v0⟩ := p
    by_cases h0 : k0 = k
    · subst h0
      simp only [setKey, if_pos rfl, lookupKey]
      rw [if_neg (fun e => h e.symm), if_neg (fun e => h e.symm)]
    · simp [setKey, h0, lookupKey, ih]

theorem setKey_setKey_self (m : RMap) (k : String) (v v' : JSON) :
    setKey (setKey m k v) k v' = setKey m k v' := by
  induction m with
  | nil => simp [setKey]
  | cons p rest ih =>
    obtain ⟨k0, v0⟩ := p
    by_cases h0 : k0 = k
    · simp [setKey, h0]
    · simp [setKey, h0, ih]

theorem asStringList_map_str (ss : List String) :
    asStringList (ss.map JSON.str) = some ss := by
  induction ss with
  | nil => rfl
  | cons s rest ih => simp [asStringList, ih]

theorem map_id_of_mem {α : Type} (f : α → α) (l : List α)
    (h : ∀ a ∈ l, f a = a) : l.map f = l := by
  induction l with
  | nil => rfl
  | cons a t ih =>
    have ht : t.map f = t := ih (fun b hb => h b (List.mem_cons_of_mem _ hb))
    simp [h a (List.mem_cons_self a t), ht]

theorem splitSlash_ne_nil (l : List Char) : splitSlash l ≠ [] := by
  induction l with
  | nil => simp [splitSlash]
  | cons c rest ih =>
    simp only [splitSlash]
    split
    · simp
    · cases h : splitSlash rest with
      | nil => simp
      | cons seg segs => simp

theorem splitSlash_no_slash (l : List Char) :
    ∀ seg ∈ splitSlash l, '/' ∉ seg := by
  induction l with
  | nil =>
    intro seg hseg
    simp [splitSlash] at hseg
    simp [hseg]
  | cons c rest ih =>
    intro seg hseg
    simp only [splitSlash] at hseg
    by_cases hc : c = '/'
    · rw [if_pos hc] at hseg
      rcases List.mem_cons.mp hseg with h | h
      · simp [h]
      · exact ih seg h
    · rw [if_neg hc] at hseg
      cases hrest : splitSlash rest with
      | nil => exact absurd hrest (splitSlash_ne_nil rest)
      | cons s0 ss =>
        rw [hrest] at hseg
        rcases List.mem_cons.mp hseg with h | h
        · subst h
          intro hmem
          rcases List.mem_cons.mp hmem with h1 | h1
          · exact hc h1.symm
          · exact ih s0 (by rw [hrest]; exact List.mem_cons_self s0 ss) h1
        · exact ih seg (by rw [hrest]; exact List.mem_cons_of_mem _ h)

theorem splitSlash_of_no_slash (seg : List Char) (h : '/' ∉ seg) :
    splitSlash seg = [seg] := by
  induction seg with
  | nil => simp [splitSlash]
  | cons c rest ih =>
    have hc : c ≠ '/' := fun e => h (by simp [e])
    have hrest : '/' ∉ rest := fun hm => h (List.mem_cons_of_mem _ hm)
    simp only [splitSlash]
    rw [if_neg hc, ih hrest]

theorem splitSlash_append (seg t : List Char) (h : '/' ∉ seg) :
    splitSlash (seg ++ '/' :: t) = seg :: splitSlash t := by
  induction seg with
  | nil => simp [splitSlash]
  | cons c rest ih =>
    have hc : c ≠ '/' := fun e => h (by simp [e])
    have hrest : '/' ∉ rest := fun hm => h (List.mem_cons_of_mem _ hm)
    have hstep : (c :: rest) ++ '/' :: t = c :: (rest ++ '/' :: t) := rfl
    rw [hstep]
    simp only [splitSlash]
    rw [if_neg hc, ih hrest]

theorem splitSlash_joinSlash (L : List (List Char)) (hne : L ≠ [])
    (h : ∀ seg ∈ L, '/' ∉ seg) : splitSlash (joinSlash L) = L := by
  induction L with
  | nil => exact absurd rfl hne
  | cons seg segs ih =>
    cases segs with
    | nil =>
      simp [joinSlash, splitSlash_of_no_slash seg (h seg (List.mem_cons_self seg []))]
    | cons s2 rest =>
      have hj : joinSlash (seg :: s2 :: rest) = seg ++ '/' :: joinSlash (s2 :: rest) := rfl
      rw [hj, splitSlash_append seg _ (h seg (List.mem_cons_self seg (s2 :: rest)))]
      rw [ih (by simp) (fun s hs => h s (List.mem_cons_of_mem _ hs))]

theorem normalizeSegment_no_slash (s : List Char) (h : '/' ∉ s) :
    '/' ∉ normalizeSegment s := by
  unfold normalizeSegment
  split_ifs
  · decide
  · decide
  · decide
  · exact h

theorem normalizeSegment_idem (s : List Char) :
    normalizeSegment (normalizeSegment s) = normalizeSegment s := by
  by_cases h1 : s = "organization".data
  · rw [h1]; decide
  · by_cases h2 : s = "folder".data
    · rw [h2]; decide
    · by_cases h3 : s = "project".data
      · rw [h3]; decide
      · have hs : normalizeSegment s = s := by
          unfold normalizeSegment
          rw [if_neg h1, if_neg h2, if_neg h3]
        rw [hs, hs]

theorem NormalizeAncestry_idem (p : String) :
    NormalizeAncestry (NormalizeAncestry p) = NormalizeAncestry p := by
  unfold NormalizeAncestry
  have hdata : ∀ l : List Char, (String.mk l).data = l := fun l => rfl
  rw [hdata]
  have hne : (splitSlash p.data).map normalizeSegment ≠ [] := by
    intro h
    rcases e : splitSlash p.data with _ | ⟨a, b⟩
    · exact splitSlash_ne_nil p.data e
    · rw [e] at h; simp at h
  have hns : ∀ seg ∈ (splitSlash p.data).map normalizeSegment, '/' ∉ seg := by
    intro seg hseg
    rcases List.mem_map.mp hseg with ⟨s0, hs0, rfl⟩
    exact normalizeSegment_no_slash s0 (splitSlash_no_slash _ s0 hs0)
  rw [splitSlash_joinSlash _ hne hns]
  have hfix : ((splitSlash p.data).map normalizeSegment).map normalizeSegment
      = (splitSlash p.data).map normalizeSegment := by
    apply map_id_of_mem
    intro a ha
    rcases List.mem_map.mp ha with ⟨s0, _, rfl⟩
    exact normalizeSegment_idem s0
  rw [hfix]

theorem nestedStringSlice_of_map_str (input : RMap) (ss : List String)
    (h : lookupKey input ancestorSliceKey = some (JSON.arr (ss.map JSON.str))) :
    nestedStringSlice input ancestorSliceKey = (ss, true, false) := by
  unfold nestedStringSlice
  rw [h]
  simp [asStringList_map_str]

theorem fixAncestry_ok_shape (input m : RMap)
    (h : fixAncestry input = Except.ok m) :
    ∃ s, m = setKey input ancestryPathKey (JSON.str s) := by
  unfold fixAncestry at h
  split at h
  · injection h with h'
    exact ⟨_, h'.symm⟩
  · split at h
    · injection h with h'
      exact ⟨_, h'.symm⟩
    · cases h

theorem lookupKey_fixAncestry (input m : RMap) (key : String)
    (hk : key ≠ ancestryPathKey) (h : fixAncestry input = Except.ok m) :
    lookupKey m key = lookupKey input key := by
  rcases fixAncestry_ok_shape input m h with ⟨s, rfl⟩
  exact lookupKey_setKey_other input ancestryPathKey key _ hk

theorem isK8S_fixAncestry (input m : RMap)
    (h : fixAncestry input = Except.ok m) : isK8S m = isK8S input := by
  unfold isK8S
  rw [lookupKey_fixAncestry input m "asset_type" (by decide) h]

theorem isStringAt_name_fixAncestry (input m : RMap)
    (h : fixAncestry input = Except.ok m) :
    isStringAt m "name" = isStringAt input "name" := by
  unfold isStringAt
  rw [lookupKey_fixAncestry input m "name" (by decide) h]

/- ---------------------------------------------------------------------
Claim theorems.
--------------------------------------------------------------------- -/

/-- C3: for every resource map containing a well-typed `ancestors`
string sequence, ancestry resolution succeeds and sets the canonical
`ancestry_path` field to the deterministic encoding of that sequence,
overwriting any pre-existing `ancestry_path` value — the sequence form
wins over the path-string form when both are present. -/
theorem ancestors_sequence_wins (input : RMap) (ss : List String)
    (h : lookupKey input ancestorSliceKey = some (JSON.arr (ss.map JSON.str))) :
    fixAncestry input
      = Except.ok (setKey input ancestryPathKey (JSON.str (AncestryPath ss))) := by
  unfold fixAncestry
  rw [nestedStringSlice_of_map_str input ss h]

/-- Witness for C3 at a concrete resource carrying both a pre-existing
`ancestry_path` and a well-typed `ancestors` sequence. -/
theorem ancestors_sequence_wins_witness :
    lookupKey
      [("name", JSON.str "a"), ("ancestry_path", JSON.str "old/path"),
       ("ancestors", JSON.arr [JSON.str "org/1", JSON.str "folder/2"])]
      ancestorSliceKey
      = some (JSON.arr (["org/1", "folder/2"].map JSON.str))
    ∧ fixAncestry
        [("name", JSON.str "a"), ("ancestry_path", JSON.str "old/path"),
         ("ancestors", JSON.arr [JSON.str "org/1", JSON.str "folder/2"])]
      = Except.ok
        [("name", JSON.str "a"), ("ancestry_path", JSON.str "org/1/folder/2"),
         ("ancestors", JSON.arr [JSON.str "org/1", JSON.str "folder/2"])] :=
  ⟨rfl,
   ancestors_sequence_wins
     [("name", JSON.str "a"), ("ancestry_path", JSON.str "old/path"),
      ("ancestors", JSON.arr [JSON.str "org/1", JSON.str "folder/2"])]
     ["org/1", "folder/2"] rfl⟩

/-- C7: for every resource map containing neither a well-typed
`ancestors` sequence nor a well-typed `ancestry_path` string, review
fails with an error naming the missing ancestry information (carrying
the offending input) and produces no `Result` and no violations. -/
theorem review_fails_without_ancestry (conv : RMap → Except String K8sObject)
    (krev : K8sObject → Except String Responses)
    (grev : RMap → Except String Responses) (asset : RMap)
    (h1 : hasWellTypedAncestors asset = false)
    (h2 : hasWellTypedAncestryPath asset = false) :
    ReviewUnmarshalledJSON conv krev grev asset
      = GoOutcome.err (VErr.missingAncestry asset) := by
  have hfix : fixAncestry asset = Except.error (VErr.missingAncestry asset) := by
    unfold hasWellTypedAncestors at h1
    unfold hasWellTypedAncestryPath at h2
    unfold fixAncestry
    rcases hns : nestedStringSlice asset ancestorSliceKey with ⟨val, found, hasErr⟩
    rcases hps : nestedString asset ancestryPathKey with ⟨pval, pfound, perr⟩
    rw [hns] at h1
    rw [hps] at h2
    cases found <;> cases hasErr <;> cases pfound <;> cases perr <;>
      first | rfl | (exact Bool.noConfusion h1) | (exact Bool.noConfusion h2)
  unfold ReviewUnmarshalledJSON
  rw [hfix]

/-- Witness for C7 at a concrete resource with an ill-typed `ancestors`
field and no `ancestry_path`. -/
theorem review_fails_without_ancestry_witness :
    hasWellTypedAncestors [("name", JSON.str "a"), ("ancestors", JSON.num 3)] = false
    ∧ hasWellTypedAncestryPath [("name", JSON.str "a"), ("ancestors", JSON.num 3)] = false
    ∧ ReviewUnmarshalledJSON (fun _ => Except.error "unused")
        (fun _ => Except.error "unused") (fun _ => Except.ok ⟨[]⟩)
        [("name", JSON.str "a"), ("ancestors", JSON.num 3)]
      = GoOutcome.err (VErr.missingAncestry [("name", JSON.str "a"), ("ancestors", JSON.num 3)]) :=
  ⟨rfl, rfl,
   review_fails_without_ancestry (fun _ => Except.error "unused")
     (fun _ => Except.error "unused") (fun _ => Except.ok ⟨[]⟩)
     [("name", JSON.str "a"), ("ancestors", JSON.num 3)] rfl rfl⟩

/-- C8: for every resource map whose only ancestry representation is a
path-string `ancestry_path` field, ancestry resolution is idempotent:
the first run normalizes the field, and a second run returns the very
same map (so the canonical value after two runs equals the value after
one run). -/
theorem fixAncestry_idempotent_on_path (m : RMap) (p : String)
    (h1 : lookupKey m ancestorSliceKey = none)
    (h2 : lookupKey m ancestryPathKey = some (JSON.str p)) :
    fixAncestry m
      = Except.ok (setKey m ancestryPathKey (JSON.str (NormalizeAncestry p)))
    ∧ fixAncestry (setKey m ancestryPathKey (JSON.str (NormalizeAncestry p)))
      = Except.ok (setKey m ancestryPathKey (JSON.str (NormalizeAncestry p))) := by
  have hfirst : fixAncestry m
      = Except.ok (setKey m ancestryPathKey (JSON.str (NormalizeAncestry p))) := by
    unfold fixAncestry nestedStringSlice nestedString
    rw [h1, h2]
  refine ⟨hfirst, ?_⟩
  have h1' : lookupKey (setKey m ancestryPathKey (JSON.str (NormalizeAncestry p)))
      ancestorSliceKey = none := by
    rw [lookupKey_setKey_other m ancestryPathKey ancestorSliceKey _ (by decide)]
    exact h1
  have h2' : lookupKey (setKey m ancestryPathKey (JSON.str (NormalizeAncestry p)))
      ancestryPathKey = some (JSON.str (NormalizeAncestry p)) :=
    lookupKey_setKey_self m ancestryPathKey _
  have hsecond : fixAncestry (setKey m ancestryPathKey (JSON.str (NormalizeAncestry p)))
      = Except.ok (setKey (setKey m ancestryPathKey (JSON.str (NormalizeAncestry p)))
          ancestryPathKey (JSON.str (NormalizeAncestry (NormalizeAncestry p)))) := by
    unfold fixAncestry nestedStringSlice nestedString
    rw [h1', h2']
  rw [hsecond, NormalizeAncestry_idem, setKey_setKey_self]

/-- Witness for C8 at a concrete resource whose only ancestry field is
a path string needing re-encoding. -/
theorem fixAncestry_idempotent_on_path_witness :
    lookupKey [("name", JSON.str "a"), ("ancestry_path", JSON.str "organization/1/folder/2")]
      ancestorSliceKey = none
    ∧ lookupKey [("name", JSON.str "a"), ("ancestry_path", JSON.str "organization/1/folder/2")]
        ancestryPathKey = some (JSON.str "organization/1/folder/2")
    ∧ (fixAncestry [("name", JSON.str "a"), ("ancestry_path", JSON.str "organization/1/folder/2")]
        = Except.ok [("name", JSON.str "a"), ("ancestry_path", JSON.str "organizations/1/folders/2")]
      ∧ fixAncestry [("name", JSON.str "a"), ("ancestry_path", JSON.str "organizations/1/folders/2")]
        = Except.ok [("name", JSON.str "a"), ("ancestry_path", JSON.str "organizations/1/folders/2")]) :=
  ⟨rfl, rfl,
   fixAncestry_idempotent_on_path
     [("name", JSON.str "a"), ("ancestry_path", JSON.str "organization/1/folder/2")]
     "organization/1/folder/2" rfl rfl⟩

/-- C5 counterexample: a resource whose `ancestry_path` is the empty
string passes ancestry resolution, keeps an empty canonical field, and
the full review then succeeds — so a successful resolution can leave
the canonical field empty, refuting the non-emptiness invariant. -/
theorem empty_ancestry_path_reviews_ok :
    fixAncestry [("name", JSON.str "a"), ("ancestry_path", JSON.str "")]
      = Except.ok [("name", JSON.str "a"), ("ancestry_path", JSON.str "")]
    ∧ lookupKey [("name", JSON.str "a"), ("ancestry_path", JSON.str "")] ancestryPathKey
      = some (JSON.str "")
    ∧ ReviewUnmarshalledJSON (fun _ => Except.error "unused")
        (fun _ => Except.error "unused") (fun _ => Except.ok ⟨["resp"]⟩)
        [("name", JSON.str "a"), ("ancestry_path", JSON.str "")]
      = GoOutcome.ok (NewResult GCPTargetName "a"
          [("name", JSON.str "a"), ("ancestry_path", JSON.str "")]
          [("name", JSON.str "a"), ("ancestry_path", JSON.str "")] ⟨["resp"]⟩) :=
  ⟨rfl, rfl, rfl⟩

/-- C5 amended: after a successful ancestry resolution the resource map
always carries a string-typed canonical `ancestry_path` field — which
may, however, be empty. -/
theorem fixAncestry_always_sets_path (input m : RMap)
    (h : fixAncestry input = Except.ok m) :
    ∃ s, lookupKey m ancestryPathKey = some (JSON.str s) := by
  rcases fixAncestry_ok_shape input m h with ⟨s, rfl⟩
  exact ⟨s, lookupKey_setKey_self input ancestryPathKey _⟩

/-- Witness for the amended C5 at a concrete resource. -/
theorem fixAncestry_always_sets_path_witness :
    fixAncestry [("ancestors", JSON.arr [JSON.str "organizations/1"])]
      = Except.ok [("ancestors", JSON.arr [JSON.str "organizations/1"]),
                   ("ancestry_path", JSON.str "organizations/1")]
    ∧ ∃ s, lookupKey [("ancestors", JSON.arr [JSON.str "organizations/1"]),
                      ("ancestry_path", JSON.str "organizations/1")] ancestryPathKey
        = some (JSON.str s) :=
  ⟨rfl,
   fixAncestry_always_sets_path [("ancestors", JSON.arr [JSON.str "organizations/1"])]
     [("ancestors", JSON.arr [JSON.str "organizations/1"]),
      ("ancestry_path", JSON.str "organizations/1")] rfl⟩

/-- C9: for every resource dispatched to the GCP path (not marked as
Kubernetes) whose review succeeds, the pre-adaptation and
post-adaptation resource data stored in the `Result` are the identical
map — no shape conversion happens on the GCP path. -/
theorem gcp_review_no_conversion (conv : RMap → Except String K8sObject)
    (krev : K8sObject → Except String Responses)
    (grev : RMap → Except String Responses) (asset : RMap) (r : Result)
    (hk : isK8S asset = false)
    (hok : ReviewUnmarshalledJSON conv krev grev asset = GoOutcome.ok r) :
    r.asset = r.reviewedAsset := by
  unfold ReviewUnmarshalledJSON at hok
  cases hfix : fixAncestry asset with
  | error e => rw [hfix] at hok; cases hok
  | ok m =>
    rw [hfix] at hok
    replace hok : (if isK8S m then reviewK8SResource conv krev m
        else reviewGCPResource grev m) = GoOutcome.ok r := hok
    rw [isK8S_fixAncestry asset m hfix, hk] at hok
    simp only [Bool.false_eq_true, if_false] at hok
    unfold reviewGCPResource at hok
    cases hrev : grev m with
    | error e => rw [hrev] at hok; cases hok
    | ok responses =>
      rw [hrev] at hok
      replace hok : (match lookupKey m "name" with
          | some (JSON.str s) =>
            GoOutcome.ok (NewResult GCPTargetName s m m responses)
          | _ => GoOutcome.panicked stringAssertPanicMsg) = GoOutcome.ok r := hok
      cases hname : lookupKey m "name" with
      | none => rw [hname] at hok; cases hok
      | some v =>
        rw [hname] at hok
        cases v with
        | null => cases hok
        | bool b => cases hok
        | num n => cases hok
        | str s => injection hok with h'; rw [← h']; rfl
        | arr xs => cases hok
        | obj fields => cases hok

/-- Witness for C9 at a concrete GCP-shaped resource. -/
theorem gcp_review_no_conversion_witness :
    isK8S [("name", JSON.str "n1"), ("ancestry_path", JSON.str "organizations/1")] = false
    ∧ ReviewUnmarshalledJSON (fun _ => Except.error "unused")
        (fun _ => Except.error "unused") (fun _ => Except.ok ⟨["r1"]⟩)
        [("name", JSON.str "n1"), ("ancestry_path", JSON.str "organizations/1")]
      = GoOutcome.ok (NewResult GCPTargetName "n1"
          [("name", JSON.str "n1"), ("ancestry_path", JSON.str "organizations/1")]
          [("name", JSON.str "n1"), ("ancestry_path", JSON.str "organizations/1")] ⟨["r1"]⟩)
    ∧ (NewResult GCPTargetName "n1"
          [("name", JSON.str "n1"), ("ancestry_path", JSON.str "organizations/1")]
          [("name", JSON.str "n1"), ("ancestry_path", JSON.str "organizations/1")] ⟨["r1"]⟩).asset
      = (NewResult GCPTargetName "n1"
          [("name", JSON.str "n1"), ("ancestry_path", JSON.str "organizations/1")]
          [("name", JSON.str "n1"), ("ancestry_path", JSON.str "organizations/1")] ⟨["r1"]⟩).reviewedAsset :=
  ⟨rfl, rfl,
   gcp_review_no_conversion (fun _ => Except.error "unused")
     (fun _ => Except.error "unused") (fun _ => Except.ok ⟨["r1"]⟩)
     [("name", JSON.str "n1"), ("ancestry_path", JSON.str "organizations/1")]
     (NewResult GCPTargetName "n1"
       [("name", JSON.str "n1"), ("ancestry_path", JSON.str "organizations/1")]
       [("name", JSON.str "n1"), ("ancestry_path", JSON.str "organizations/1")] ⟨["r1"]⟩)
     rfl rfl⟩

/-- C1 counterexample: a Kubernetes-marked resource whose review
succeeds, where the converted object's display name is `mypod` but the
identifier stored in the `Result` is the original asset's `name` field
value `//cai/full/name` — the code uses `asset["name"].(string)`, not
the converted object's display name. -/
theorem k8s_identifier_not_display_name :
    ReviewUnmarshalledJSON
      (fun _ => Except.ok ⟨[("metadata", JSON.obj [("name", JSON.str "mypod")])]⟩)
      (fun _ => Except.ok ⟨[]⟩)
      (fun _ => Except.error "unused")
      [("asset_type", JSON.str "k8s.io/Pod"), ("name", JSON.str "//cai/full/name"),
       ("ancestry_path", JSON.str "organizations/1")]
      = GoOutcome.ok (NewResult K8STargetName "//cai/full/name"
          [("asset_type", JSON.str "k8s.io/Pod"), ("name", JSON.str "//cai/full/name"),
           ("ancestry_path", JSON.str "organizations/1")]
          [("metadata", JSON.obj [("name", JSON.str "mypod")])] ⟨[]⟩)
    ∧ K8sObject.getName ⟨[("metadata", JSON.obj [("name", JSON.str "mypod")])]⟩ = "mypod"
    ∧ (NewResult K8STargetName "//cai/full/name"
          [("asset_type", JSON.str "k8s.io/Pod"), ("name", JSON.str "//cai/full/name"),
           ("ancestry_path", JSON.str "organizations/1")]
          [("metadata", JSON.obj [("name", JSON.str "mypod")])] ⟨[]⟩).name ≠ "mypod" :=
  ⟨rfl, rfl, by decide⟩

/-- C1 amended: for every resource classified as Kubernetes-shaped
whose review succeeds, the identifier stored in the returned `Result`
equals the value of the original asset's `name` field (which must be a
string), not the converted Kubernetes object's display name. -/
theorem k8s_identifier_is_asset_name (conv : RMap → Except String K8sObject)
    (krev : K8sObject → Except String Responses)
    (grev : RMap → Except String Responses) (asset : RMap) (r : Result)
    (hk : isK8S asset = true)
    (hok : ReviewUnmarshalledJSON conv krev grev asset = GoOutcome.ok r) :
    lookupKey asset "name" = some (JSON.str r.name) := by
  unfold ReviewUnmarshalledJSON at hok
  cases hfix : fixAncestry asset with
  | error e => rw [hfix] at hok; cases hok
  | ok m =>
    rw [hfix] at hok
    replace hok : (if isK8S m then reviewK8SResource conv krev m
        else reviewGCPResource grev m) = GoOutcome.ok r := hok
    rw [isK8S_fixAncestry asset m hfix, hk, if_pos rfl] at hok
    unfold reviewK8SResource at hok
    cases hconv : conv m with
    | error e => rw [hconv] at hok; cases hok
    | ok k8sResource =>
      rw [hconv] at hok
      replace hok : (match krev k8sResource with
          | Except.error e => GoOutcome.err (VErr.k8sReviewFailed e)
          | Except.ok responses =>
            match lookupKey m "name" with
            | some (JSON.str s) =>
              GoOutcome.ok (NewResult K8STargetName s m k8sResource.Object responses)
            | _ => GoOutcome.panicked stringAssertPanicMsg)
          = GoOutcome.ok r := hok
      cases hrev : krev k8sResource with
      | error e => rw [hrev] at hok; cases hok
      | ok responses =>
        rw [hrev] at hok
        replace hok : (match lookupKey m "name" with
            | some (JSON.str s) =>
              GoOutcome.ok (NewResult K8STargetName s m k8sResource.Object responses)
            | _ => GoOutcome.panicked stringAssertPanicMsg)
            = GoOutcome.ok r := hok
        rw [← lookupKey_fixAncestry asset m "name" (by decide) hfix]
        cases hname : lookupKey m "name" with
        | none => rw [hname] at hok; cases hok
        | some v =>
          rw [hname] at hok
          cases v with
          | null => cases hok
          | bool b => cases hok
          | num n => cases hok
          | str s => injection hok with h'; rw [← h']; rfl
          | arr xs => cases hok
          | obj fields => cases hok

/-- Witness for the amended C1 at a concrete Kubernetes-marked
resource. -/
theorem k8s_identifier_is_asset_name_witness :
    isK8S [("asset_type", JSON.str "k8s.io/Pod"), ("name", JSON.str "n2"),
           ("ancestry_path", JSON.str "organizations/1")] = true
    ∧ ReviewUnmarshalledJSON
        (fun _ => Except.ok ⟨[("metadata", JSON.obj [("name", JSON.str "pod2")])]⟩)
        (fun _ => Except.ok ⟨[]⟩) (fun _ => Except.error "unused")
        [("asset_type", JSON.str "k8s.io/Pod"), ("name", JSON.str "n2"),
         ("ancestry_path", JSON.str "organizations/1")]
      = GoOutcome.ok (NewResult K8STargetName "n2"
          [("asset_type", JSON.str "k8s.io/Pod"), ("name", JSON.str "n2"),
           ("ancestry_path", JSON.str "organizations/1")]
          [("metadata", JSON.obj [("name", JSON.str "pod2")])] ⟨[]⟩)
    ∧ lookupKey [("asset_type", JSON.str "k8s.io/Pod"), ("name", JSON.str "n2"),
                 ("ancestry_path", JSON.str "organizations/1")] "name"
      = some (JSON.str (NewResult K8STargetName "n2"
          [("asset_type", JSON.str "k8s.io/Pod"), ("name", JSON.str "n2"),
           ("ancestry_path", JSON.str "organizations/1")]
          [("metadata", JSON.obj [("name", JSON.str "pod2")])] ⟨[]⟩).name) :=
  ⟨rfl, rfl,
   k8s_identifier_is_asset_name
     (fun _ => Except.ok ⟨[("metadata", JSON.obj [("name", JSON.str "pod2")])]⟩)
     (fun _ => Except.ok ⟨[]⟩) (fun _ => Except.error "unused")
     [("asset_type", JSON.str "k8s.io/Pod"), ("name", JSON.str "n2"),
      ("ancestry_path", JSON.str "organizations/1")]
     (NewResult K8STargetName "n2"
       [("asset_type", JSON.str "k8s.io/Pod"), ("name", JSON.str "n2"),
        ("ancestry_path", JSON.str "organizations/1")]
       [("metadata", JSON.obj [("name", JSON.str "pod2")])] ⟨[]⟩)
     rfl rfl⟩

/-- C2 counterexample: for a Kubernetes-marked resource missing its
`name` field whose adaptation and engine review both succeed,
`ReviewUnmarshalledJSON` does not return a descriptive error — the
identifier extraction `asset["name"].(string)` fails with a runtime
type-assertion panic (a behaviour other than returning an error). -/
theorem missing_name_panics_not_errors :
    ReviewUnmarshalledJSON
      (fun _ => Except.ok ⟨[("metadata", JSON.obj [("name", JSON.str "mypod")])]⟩)
      (fun _ => Except.ok ⟨[]⟩)
      (fun _ => Except.error "unused")
      [("asset_type", JSON.str "k8s.io/Pod"), ("ancestry_path", JSON.str "organizations/1")]
      = GoOutcome.panicked stringAssertPanicMsg :=
  rfl

/-- C2 amended: for every resource whose `name` field is absent or not
string-typed, `ReviewUnmarshalledJSON` never succeeds (it returns an
error or fails with the type-assertion panic at identifier extraction,
so no violations are ever produced), and `ReviewAsset` on an asset with
an empty `name` returns a descriptive error. -/
theorem name_invalid_never_reviews_ok :
    (∀ (conv : RMap → Except String K8sObject)
       (krev : K8sObject → Except String Responses)
       (grev : RMap → Except String Responses) (asset : RMap),
      isStringAt asset "name" = false →
      ∀ r, ReviewUnmarshalledJSON conv krev grev asset ≠ GoOutcome.ok r)
    ∧ (∀ (conv : RMap → Except String K8sObject)
         (krev : K8sObject → Except String Responses)
         (grev : RMap → Except String Responses) (a : ProtoAsset),
        a.name = "" →
        ReviewAsset conv krev grev a = GoOutcome.err (VErr.missingField "name")
          ∨ ReviewAsset conv krev grev a
              = GoOutcome.err (VErr.sanitizeFailed "no ancestry information in asset")) := by
  constructor
  · intro conv krev grev asset hbad r hok
    unfold ReviewUnmarshalledJSON at hok
    cases hfix : fixAncestry asset with
    | error e => rw [hfix] at hok; cases hok
    | ok m =>
      rw [hfix] at hok
      replace hok : (if isK8S m then reviewK8SResource conv krev m
          else reviewGCPResource grev m) = GoOutcome.ok r := hok
      have hbm : isStringAt m "name" = false := by
        rw [isStringAt_name_fixAncestry asset m hfix]
        exact hbad
      unfold isStringAt at hbm
      by_cases hk : isK8S m
      · rw [if_pos hk] at hok
        unfold reviewK8SResource at hok
        cases hconv : conv m with
        | error e => rw [hconv] at hok; cases hok
        | ok k8sResource =>
          rw [hconv] at hok
          replace hok : (match krev k8sResource with
              | Except.error e => GoOutcome.err (VErr.k8sReviewFailed e)
              | Except.ok responses =>
                match lookupKey m "name" with
                | some (JSON.str s) =>
                  GoOutcome.ok (NewResult K8STargetName s m k8sResource.Object responses)
                | _ => GoOutcome.panicked stringAssertPanicMsg)
              = GoOutcome.ok r := hok
          cases hrev : krev k8sResource with
          | error e => rw [hrev] at hok; cases hok
          | ok responses =>
            rw [hrev] at hok
            replace hok : (match lookupKey m "name" with
                | some (JSON.str s) =>
                  GoOutcome.ok (NewResult K8STargetName s m k8sResource.Object responses)
                | _ => GoOutcome.panicked stringAssertPanicMsg)
                = GoOutcome.ok r := hok
            cases hname : lookupKey m "name" with
            | none => rw [hname] at hok; cases hok
            | some v =>
              rw [hname] at hok
              rw [hname] at hbm
              cases v with
              | null => cases hok
              | bool b => cases hok
              | num n => cases hok
              | str s => exact Bool.noConfusion hbm
              | arr xs => cases hok
              | obj fields => cases hok
      · rw [if_neg hk] at hok
        unfold reviewGCPResource at hok
        cases hrev : grev m with
        | error e => rw [hrev] at hok; cases hok
        | ok responses =>
          rw [hrev] at hok
          replace hok : (match lookupKey m "name" with
              | some (JSON.str s) =>
                GoOutcome.ok (NewResult GCPTargetName s m m responses)
              | _ => GoOutcome.panicked stringAssertPanicMsg)
              = GoOutcome.ok r := hok
          cases hname : lookupKey m "name" with
          | none => rw [hname] at hok; cases hok
          | some v =>
            rw [hname] at hok
            rw [hname] at hbm
            cases v with
            | null => cases hok
            | bool b => cases hok
            | num n => cases hok
            | str s => exact Bool.noConfusion hbm
            | arr xs => cases hok
            | obj fields => cases hok
  · intro conv krev grev a hname
    by_cases h1 : a.ancestors = []
    · by_cases h2 : a.ancestryPath = ""
      · have hsan : SanitizeAncestryPath a
            = Except.error (VErr.sanitizeFailed "no ancestry information in asset") := by
          unfold SanitizeAncestryPath
          rw [if_neg (not_not_intro h1), if_neg (not_not_intro h2)]
        refine Or.inr ?_
        unfold ReviewAsset
        rw [hsan]
      · have hsan : SanitizeAncestryPath a
            = Except.ok { a with ancestryPath := NormalizeAncestry a.ancestryPath } := by
          unfold SanitizeAncestryPath
          rw [if_neg (not_not_intro h1), if_pos h2]
        have hval : ValidateAsset { a with ancestryPath := NormalizeAncestry a.ancestryPath }
            = Except.error (VErr.missingField "name") := by
          unfold ValidateAsset
          rw [if_pos hname]
        refine Or.inl ?_
        simp only [ReviewAsset, hsan, hval]
    · have hsan : SanitizeAncestryPath a
          = Except.ok { a with ancestryPath := AncestryPath a.ancestors } := by
        unfold SanitizeAncestryPath
        rw [if_pos h1]
      have hval : ValidateAsset { a with ancestryPath := AncestryPath a.ancestors }
          = Except.error (VErr.missingField "name") := by
        unfold ValidateAsset
        rw [if_pos hname]
      refine Or.inl ?_
      simp only [ReviewAsset, hsan, hval]

/-- Witness for the amended C2: a resource with no `name` field is
never reviewed successfully, and a typed asset with empty `name` gets
the descriptive validation error. -/
theorem name_invalid_never_reviews_ok_witness :
    (isStringAt [("ancestry_path", JSON.str "organizations/1")] "name" = false
      ∧ ReviewUnmarshalledJSON (fun _ => Except.error "unused")
          (fun _ => Except.error "unused") (fun _ => Except.ok ⟨[]⟩)
          [("ancestry_path", JSON.str "organizations/1")]
        ≠ GoOutcome.ok (NewResult GCPTargetName "a" [] [] ⟨[]⟩))
    ∧ ((⟨"", "t", "organizations/1", [], []⟩ : ProtoAsset).name = ""
      ∧ (ReviewAsset (fun _ => Except.error "unused") (fun _ => Except.error "unused")
          (fun _ => Except.ok ⟨[]⟩) (⟨"", "t", "organizations/1", [], []⟩ : ProtoAsset)
          = GoOutcome.err (VErr.missingField "name")
        ∨ ReviewAsset (fun _ => Except.error "unused") (fun _ => Except.error "unused")
            (fun _ => Except.ok ⟨[]⟩) (⟨"", "t", "organizations/1", [], []⟩ : ProtoAsset)
            = GoOutcome.err (VErr.sanitizeFailed "no ancestry information in asset"))) :=
  ⟨⟨rfl,
    name_invalid_never_reviews_ok.1 (fun _ => Except.error "unused")
      (fun _ => Except.error "unused") (fun _ => Except.ok ⟨[]⟩)
      [("ancestry_path", JSON.str "organizations/1")] rfl
      (NewResult GCPTargetName "a" [] [] ⟨[]⟩)⟩,
   ⟨rfl,
    name_invalid_never_reviews_ok.2 (fun _ => Except.error "unused")
      (fun _ => Except.error "unused") (fun _ => Except.ok ⟨[]⟩)
      (⟨"", "t", "organizations/1", [], []⟩ : ProtoAsset) rfl⟩⟩

/-- C4: when driver and client creation succeed and at least one
template fails to load, `newCFClient` returns the aggregated error
listing every failed template and never attempts to load any
constraint; and the handle comes back only if every template and every
constraint loaded. -/
theorem bootstrap_aborts_on_template_failure
    (addTemplate addConstraint : String → Option String)
    (templates constraints : List String) :
    ((∃ t ∈ templates, addTemplate t ≠ none) →
      newCFClient none none addTemplate addConstraint templates constraints
        = (Except.error (CFErr.aggregated (templateErrors addTemplate templates)), []))
    ∧ ((newCFClient none none addTemplate addConstraint templates constraints).1
          = Except.ok ()
        ↔ (∀ t ∈ templates, addTemplate t = none)
          ∧ (∀ c ∈ constraints, addConstraint c = none)) := by
  have hT : templateErrors addTemplate templates = []
      ↔ ∀ t ∈ templates, addTemplate t = none := by
    unfold templateErrors
    rw [List.filterMap_eq_nil_iff]
    constructor
    · intro h t ht
      have h' := h t ht
      cases e : addTemplate t with
      | none => rfl
      | some msg => rw [e] at h'; cases h'
    · intro h t ht
      rw [h t ht]
      rfl
  have hC : constraintErrors addConstraint constraints = []
      ↔ ∀ c ∈ constraints, addConstraint c = none := by
    unfold constraintErrors
    rw [List.filterMap_eq_nil_iff]
    constructor
    · intro h c hc
      have h' := h c hc
      cases e : addConstraint c with
      | none => rfl
      | some msg => rw [e] at h'; cases h'
    · intro h c hc
      rw [h c hc]
      rfl
  constructor
  · rintro ⟨t, ht, hbad⟩
    have hne : templateErrors addTemplate templates ≠ [] := by
      intro h
      exact hbad (hT.mp h t ht)
    unfold newCFClient
    cases e : templateErrors addTemplate templates with
    | nil => exact absurd e hne
    | cons x xs => rfl
  · unfold newCFClient
    cases e : templateErrors addTemplate templates with
    | cons x xs =>
      constructor
      · intro h
        exact Except.noConfusion h
      · rintro ⟨hAll, _⟩
        have h0 : templateErrors addTemplate templates = [] := hT.mpr hAll
        rw [e] at h0
        cases h0
    | nil =>
      cases e2 : constraintErrors addConstraint constraints with
      | nil =>
        constructor
        · intro _
          exact ⟨hT.mp e, hC.mp e2⟩
        · intro _
          rfl
      | cons y ys =>
        constructor
        · intro h
          exact Except.noConfusion h
        · rintro ⟨_, hAll⟩
          have h0 : constraintErrors addConstraint constraints = [] := hC.mpr hAll
          rw [e2] at h0
          cases h0

/-- Witness for C4: one bad template among good ones aborts the
bootstrap with the aggregated error and no constraint is attempted. -/
theorem bootstrap_aborts_on_template_failure_witness :
    (∃ t ∈ ["t1", "t2"],
      (fun t => if t = "t2" then some "parse error" else none) t ≠ none)
    ∧ newCFClient none none (fun t => if t = "t2" then some "parse error" else none)
        (fun _ => none) ["t1", "t2"] ["c1"]
      = (Except.error (CFErr.aggregated ["failed to add template t2: parse error"]), []) :=
  ⟨⟨"t2", by decide, by decide⟩,
   (bootstrap_aborts_on_template_failure
      (fun t => if t = "t2" then some "parse error" else none)
      (fun _ => none) ["t1", "t2"] ["c1"]).1 ⟨"t2", by decide, by decide⟩⟩

/-- C6: for every Terraform planned-change input lacking an `address`
field, `ReviewTFResourceChange` returns the "unhandled resource" error
before any evaluation-client `Review` call is made (its call trace is
empty), and no violations are produced. -/
theorem tf_unhandled_before_review (tfConvert : RMap → RMap)
    (tfReview : RMap → Except String Responses) (inputResource : RMap)
    (h : lookupKey inputResource "address" = none) :
    ReviewTFResourceChange tfConvert tfReview inputResource
      = (GoOutcome.err TFErr.unhandledResource, []) := by
  unfold ReviewTFResourceChange ReviewTFResourceChangeCore tfHandleReview
  rw [h]

/-- Witness for C6 at a concrete address-less input. -/
theorem tf_unhandled_before_review_witness :
    lookupKey [("change", JSON.obj [("after", JSON.null)])] "address" = none
    ∧ ReviewTFResourceChange (fun _ => []) (fun _ => Except.ok ⟨["r"]⟩)
        [("change", JSON.obj [("after", JSON.null)])]
      = (GoOutcome.err TFErr.unhandledResource, []) :=
  ⟨rfl,
   tf_unhandled_before_review (fun _ => []) (fun _ => Except.ok ⟨["r"]⟩)
     [("change", JSON.obj [("after", JSON.null)])] rfl⟩

/-- C10: for every Terraform input the adapter reports as handled, the
`Review` call receives the original input map (the adapter's converted
value is discarded — the statement holds for every converter), and the
`Result`'s pre- and post-adaptation resource data are both that
original input map. -/
theorem tf_review_uses_original_input (tfConvert : RMap → RMap)
    (tfReview : RMap → Except String Responses) (inputResource : RMap)
    (addr : String) (responses : Responses)
    (haddr : lookupKey inputResource "address" = some (JSON.str addr))
    (hrev : tfReview inputResource = Except.ok responses) :
    ReviewTFResourceChangeCore tfConvert tfReview inputResource
      = (GoOutcome.ok (NewResult TFTargetName addr inputResource inputResource responses),
         [inputResource]) := by
  unfold ReviewTFResourceChangeCore tfHandleReview
  rw [haddr]
  simp only [hrev]

/-- Witness for C10 at a concrete handled input, with a converter that
returns a different map (demonstrating the converted value is
discarded). -/
theorem tf_review_uses_original_input_witness :
    lookupKey [("address", JSON.str "google_sql.db"), ("change", JSON.obj [])] "address"
      = some (JSON.str "google_sql.db")
    ∧ ((fun _ => Except.ok ⟨["v"]⟩ : RMap → Except String Responses)
        [("address", JSON.str "google_sql.db"), ("change", JSON.obj [])]
      = Except.ok (⟨["v"]⟩ : Responses))
    ∧ ReviewTFResourceChangeCore (fun _ => [("converted", JSON.bool true)])
        (fun _ => Except.ok ⟨["v"]⟩)
        [("address", JSON.str "google_sql.db"), ("change", JSON.obj [])]
      = (GoOutcome.ok (NewResult TFTargetName "google_sql.db"
          [("address", JSON.str "google_sql.db"), ("change", JSON.obj [])]
          [("address", JSON.str "google_sql.db"), ("change", JSON.obj [])] ⟨["v"]⟩),
         [[("address", JSON.str "google_sql.db"), ("change", JSON.obj [])]]) :=
  ⟨rfl, rfl,
   tf_review_uses_original_input (fun _ => [("converted", JSON.bool true)])
     (fun _ => Except.ok ⟨["v"]⟩)
     [("address", JSON.str "google_sql.db"), ("change", JSON.obj [])]
     "google_sql.db" ⟨["v"]⟩ rfl rfl⟩

end GCV








